import Mathlib

/-!
A verification development for search-github-users.py: a GitHub user search
client consisting of a query builder (UserSearcher.__init__), a pagination
planner (UserSearcher._get_pages) and a paginated search loop
(UserSearcher.search) that fetches pages through a transport, projects each
backend record to two columns, truncates the final page and concatenates
the pages in order.
-/

namespace GithubSearch

/-- One row of data: an association list from column names to string
values. Backend records and projected result rows are both represented
this way, standing for one row of a pandas DataFrame. -/
abbrev Row := List (String × String)

/-- The DataFrameFromDict projection of one backend record (source lines
23-31 and 117-121): the record's original columns are captured at entry,
the two new columns username and github_url are assigned from the login
and html_url columns, and at exit every original column is dropped, so
only columns that were not present in the incoming record survive. -/
def project (r : Row) : Row :=
  let columns := r.map Prod.fst
  (r ++ [("username", (List.lookup "login" r).getD ""),
         ("github_url", (List.lookup "html_url" r).getD "")]).filter
    (fun kv => !(columns.contains kv.1))

/-- The constructed searcher object: only the _search_query attribute is
relevant to the embedded behavior. -/
structure UserSearcher where
  _search_query : String

/-- The clause contributed by min_followers (source lines 62-63). Python
truthiness governs inclusion, so None and 0 contribute no clause. -/
def followers_clause : Option Int → List String
  | none => []
  | some v => if v = 0 then [] else ["followers:>=" ++ toString v]

/-- The clause contributed by min_repos (source lines 64-65); None and 0
contribute no clause. -/
def repos_clause : Option Int → List String
  | none => []
  | some v => if v = 0 then [] else ["repos:>=" ++ toString v]

/-- The clause contributed by language (source lines 66-67); None and the
empty string contribute no clause. -/
def language_clause : Option String → List String
  | none => []
  | some s => if s = "" then [] else ["language:" ++ s]

/-- UserSearcher.__init__ (source lines 40-69): raises ValueError when all
three arguments are None, and otherwise joins the clauses of the truthy
arguments with the plus delimiter, in the fixed order followers, repos,
language. Raising is modelled as Except.error carrying the message. -/
def UserSearcher.init (min_followers min_repos : Option Int)
    (language : Option String) : Except String UserSearcher :=
  if min_followers = none ∧ min_repos = none ∧ language = none then
    Except.error "Must specify at least one search parameter."
  else
    Except.ok ⟨String.intercalate "+"
      (followers_clause min_followers ++ repos_clause min_repos ++
        language_clause language)⟩

/-- UserSearcher._get_pages (source lines 137-158) with Python integer
semantics: floor division and floor modulus (Int.fdiv, Int.fmod) and the
bool-to-int addition of the remainder test. -/
def UserSearcher._get_pages (num_results max_results : Int) : Int :=
  Int.fdiv num_results max_results +
    (if 0 < Int.fmod num_results max_results then 1 else 0)

/-- The body of one iteration of the search loop, for the 0-based page
index i (source lines 117-126): the fetched records are projected, and on
the last page the projected page is truncated to num_results modulo
max_results rows, with a full max_results rows kept when that remainder is
zero (the Python idiom n % max or max). -/
def process_page (num_results num_pages max_results : Int) (i : Nat)
    (records : List Row) : List Row :=
  let df := records.map project
  if (i : Int) + 1 = num_pages then
    let final_res :=
      if Int.fmod num_results max_results = 0 then max_results
      else Int.fmod num_results max_results
    df.take final_res.toNat
  else df

/-- The for loop of UserSearcher.search (source lines 94-133), tracking
the accumulated result rows together with the list of (page, per_page)
requests issued to the transport. Each iteration requests the 1-based page
number i+1 with per_page equal to min(num_results, max_results); a
transport error propagates immediately and aborts the whole search, as a
raised requests exception is not caught anywhere in the source. -/
def search_loop (fetch : Int → Int → Except String (List Row))
    (num_results num_pages max_results : Int) :
    List Nat → List (Int × Int) → List Row →
      Except String (List (Int × Int) × List Row)
  | [], log, search_results => Except.ok (log, search_results)
  | i :: rest, log, search_results =>
    let per_page := min num_results max_results
    match fetch ((i : Int) + 1) per_page with
    | Except.error e => Except.error e
    | Except.ok records =>
        search_loop fetch num_results num_pages max_results rest
          (log ++ [((i : Int) + 1, per_page)])
          (search_results ++
            process_page num_results num_pages max_results i records)

/-- UserSearcher.search (source lines 71-135), instrumented with the list
of (page, per_page) transport requests it issues. The empty DataFrame
placeholder of lines 91-92 is the empty accumulator, and the loop runs
over range(num_pages), which is empty when num_pages is not positive. -/
def UserSearcher.search (fetch : Int → Int → Except String (List Row))
    (num_results : Int) : Except String (List (Int × Int) × List Row) :=
  let max_results : Int := 100
  let num_pages := UserSearcher._get_pages num_results max_results
  search_loop fetch num_results num_pages max_results
    (List.range num_pages.toNat) [] []

/-- Modelled from the spec: SearchTransport.fetchPage over GitHub's user
search endpoint, which is not part of the repository (spec section 6). The
backend is a fixed relevance-ordered list of records, and page p with size
per_page serves the records at 0-based positions (p-1)*per_page up to
p*per_page, so every fetch returns at most per_page backend-ordered
records and consecutive pages partition the backend list. -/
def github_page (backend : List Row) (page per_page : Int) : List Row :=
  (backend.drop ((page - 1) * per_page).toNat).take per_page.toNat

/-- Modelled from the spec: a transport whose every fetch succeeds,
serving github_page slices of a fixed backend list. -/
def github_fetch (backend : List Row) (page per_page : Int) :
    Except String (List Row) :=
  Except.ok (github_page backend page per_page)

/-- The rendering of the query demanded by the claim (spec sections 3 and
8): exactly one clause per present field, in the fixed order followers,
repos, language. -/
def spec_clauses (min_followers min_repos : Option Int)
    (language : Option String) : List String :=
  (min_followers.toList.map (fun v => "followers:>=" ++ toString v)) ++
    (min_repos.toList.map (fun v => "repos:>=" ++ toString v)) ++
    (language.toList.map (fun s => "language:" ++ s))

/-- The amended rendering of the query: one clause per present field whose
value is truthy (a nonzero integer, a nonempty string), in the fixed order
followers, repos, language; absent fields and falsy values contribute no
clause. -/
def amended_clauses (min_followers min_repos : Option Int)
    (language : Option String) : List String :=
  ((min_followers.toList.filter (fun v => v != 0)).map
      (fun v => "followers:>=" ++ toString v)) ++
    ((min_repos.toList.filter (fun v => v != 0)).map
      (fun v => "repos:>=" ++ toString v)) ++
    ((language.toList.filter (fun s => s != "")).map
      (fun s => "language:" ++ s))

/-- Casting lemma: _get_pages on a natural number of requested results is
the natural-number page count. -/
lemma get_pages_ofNat (n : Nat) :
    UserSearcher._get_pages (n : Int) 100
      = ((n / 100 + if n % 100 = 0 then 0 else 1 : Nat) : Int) := by
  unfold UserSearcher._get_pages
  rw [Int.fdiv_eq_ediv _ (by norm_num), Int.fmod_eq_emod _ (by norm_num)]
  by_cases h : n % 100 = 0
  · rw [if_pos h, if_neg (by omega : ¬ (0:Int) < (n : Int) % 100)]
    omega
  · rw [if_neg h, if_pos (by omega : (0:Int) < (n : Int) % 100)]
    omega

/-- Casting lemma: the Python modulus of a natural number of requested
results by the positive page size is the natural-number remainder. -/
lemma fmod_ofNat (n : Nat) :
    Int.fmod (n : Int) 100 = ((n % 100 : Nat) : Int) := by
  rw [Int.fmod_eq_emod _ (by norm_num)]
  omega

/-- The arithmetic facts tying together the page count, the per-page size
and the size of the truncated last page, for a positive request. -/
lemma pagination_arith (n : Nat) (hn : 0 < n) :
    (if n % 100 = 0 then 100 else n % 100) ≤ min n 100
      ∧ n ≤ (n / 100 + if n % 100 = 0 then 0 else 1) * min n 100
      ∧ n - ((n / 100 + if n % 100 = 0 then 0 else 1) - 1) * min n 100
          = (if n % 100 = 0 then 100 else n % 100) := by
  rcases Nat.lt_or_ge n 100 with hlt | hge
  · have hq : n / 100 = 0 := Nat.div_eq_of_lt hlt
    have hr : n % 100 = n := Nat.mod_eq_of_lt hlt
    have hmin : min n 100 = n := min_eq_left (by omega)
    rw [hq, hr, hmin]
    have hne : ¬ n = 0 := by omega
    simp [hne]
  · have hmin : min n 100 = 100 := min_eq_right hge
    rw [hmin]
    have h1 := Nat.div_add_mod n 100
    have h2 : n % 100 < 100 := Nat.mod_lt n (by norm_num)
    by_cases hr : n % 100 = 0
    · simp only [if_pos hr]
      omega
    · simp only [if_neg hr]
      omega

/-- When a backend record supplies neither a username nor a github_url
column, its projection is exactly the two-column row built from its login
and html_url columns. -/
lemma project_eq_pair (r : Row) (h1 : "username" ∉ r.map Prod.fst)
    (h2 : "github_url" ∉ r.map Prod.fst) :
    project r = [("username", (List.lookup "login" r).getD ""),
                 ("github_url", (List.lookup "html_url" r).getD "")] := by
  unfold project
  rw [List.filter_append]
  have hA : r.filter (fun kv => !((r.map Prod.fst).contains kv.1)) = [] := by
    simp only [List.filter_eq_nil_iff]
    intro kv hkv
    simpa using List.mem_map_of_mem Prod.fst hkv
  rw [hA, List.nil_append]
  have hu : ((r.map Prod.fst).contains "username") = false := by
    simpa using h1
  have hg : ((r.map Prod.fst).contains "github_url") = false := by
    simpa using h2
  simp only [List.filter_cons, List.filter_nil, hu, hg, Bool.not_false,
    if_true]

/-- Running the search loop with a transport whose every fetch succeeds:
the loop returns the requests for the 1-based successors of the remaining
indices and appends every processed page in index order. -/
lemma search_loop_ok (f : Int → Int → List Row)
    (nr np mr : Int) (is : List Nat) (log : List (Int × Int))
    (acc : List Row) :
    search_loop (fun p pp => Except.ok (f p pp)) nr np mr is log acc
      = Except.ok
          (log ++ is.map (fun (i : Nat) => ((i : Int) + 1, min nr mr)),
           acc ++ is.flatMap
             (fun i => process_page nr np mr i (f ((i : Int) + 1) (min nr mr)))) := by
  induction is generalizing log acc with
  | nil => simp [search_loop]
  | cons i rest ih =>
      rw [search_loop]
      simp only []
      rw [ih]
      simp [List.append_assoc]

/-- On the last page (1-based index equal to the page count), the loop
body truncates the projected page to the remainder of num_results by 100,
or to a full 100 rows when the remainder is zero. -/
lemma process_page_last (n : Nat) (s : Nat)
    (hlast : s + 1 = n / 100 + (if n % 100 = 0 then 0 else 1))
    (records : List Row) :
    process_page (n : Int) (UserSearcher._get_pages (n : Int) 100) 100 s
        records
      = (records.map project).take (if n % 100 = 0 then 100 else n % 100) := by
  have hfr : (if Int.fmod ((n : Nat) : Int) 100 = 0 then (100 : Int)
        else Int.fmod ((n : Nat) : Int) 100).toNat
      = (if n % 100 = 0 then 100 else n % 100) := by
    rw [fmod_ofNat]
    by_cases hr : n % 100 = 0
    · rw [if_pos (by exact_mod_cast hr), if_pos hr]
      rfl
    · rw [if_neg (by exact_mod_cast hr), if_neg hr]
      omega
  simp only [process_page]
  rw [get_pages_ofNat]
  rw [if_pos (show ((s : Nat) : Int) + 1 = _ from by exact_mod_cast hlast)]
  rw [hfr]

/-- On every earlier page, the loop body keeps the whole projected page. -/
lemma process_page_not_last (n : Nat) (s : Nat)
    (h : ¬ (s + 1 = n / 100 + (if n % 100 = 0 then 0 else 1)))
    (records : List Row) :
    process_page (n : Int) (UserSearcher._get_pages (n : Int) 100) 100 s
        records
      = records.map project := by
  unfold process_page
  rw [get_pages_ofNat]
  rw [if_neg (by intro hc; exact h (by exact_mod_cast hc))]

/-- The sliced backend transport, with natural-number arithmetic: page s+1
of size min n 100 serves the backend records starting at position
s * min n 100. -/
lemma github_page_ofNat (backend : List Row) (n s : Nat) :
    github_page backend ((s : Int) + 1) (min ((n : Int)) 100)
      = (backend.drop (s * min n 100)).take (min n 100) := by
  have hminI : min ((n : Int)) 100 = ((min n 100 : Nat) : Int) := by
    rw [Nat.cast_min]; norm_num
  unfold github_page
  rw [hminI]
  have h1 : ((s : Int) + 1 - 1) = (s : Int) := by ring
  rw [h1, ← Nat.cast_mul, Int.toNat_ofNat, Int.toNat_ofNat]

/-- A chunked slice of a prefix: a full middle chunk of b rows starting at
position a, followed by the rest of the k-prefix, is the rest of the
k-prefix from position a. -/
lemma drop_take_chunk (l : List Row) (a b k : Nat) (h : a + b ≤ k) :
    (l.drop a).take b ++ (l.take k).drop (a + b) = (l.take k).drop a := by
  rw [List.drop_take k (a + b), List.drop_take k a]
  have harr : k - a = b + (k - (a + b)) := by omega
  rw [harr, List.take_add, List.drop_drop]

/-- A truncated final slice: truncating the chunk at position a to the fr
rows still missing from the k-prefix yields exactly the rest of the
k-prefix from position a. -/
lemma drop_take_last (l : List Row) (a k fr m : Nat) (hfr : fr ≤ m)
    (hk : k - a = fr) :
    ((l.drop a).take m).take fr = (l.take k).drop a := by
  rw [List.take_take, min_eq_left hfr, List.drop_take k a, hk]

/-- Running the search loop against the sliced backend transport with a
positive request: starting from 0-based page index s with the correct
number of remaining pages, the loop succeeds, requests pages s+1 and
onwards in ascending order, and extends the accumulated rows with the
still-missing part of the first n projected backend records. -/
lemma search_loop_slice (backend : List Row) (n : Nat) (hn : 0 < n)
    (cnt : Nat) :
    ∀ (s : Nat),
      s + cnt = n / 100 + (if n % 100 = 0 then 0 else 1) →
    ∀ (log : List (Int × Int)) (acc : List Row),
    search_loop (github_fetch backend) (n : Int)
        (UserSearcher._get_pages (n : Int) 100) 100
        (List.range' s cnt) log acc
      = Except.ok
          (log ++ (List.range' s cnt).map
              (fun (i : Nat) => ((i : Int) + 1, min ((n : Int)) 100)),
           acc ++ ((backend.map project).take n).drop (s * min n 100)) := by
  have harith := pagination_arith n hn
  induction cnt with
  | zero =>
      intro s hsc log acc
      have hdrop :
          ((backend.map project).take n).drop (s * min n 100) = [] := by
        apply List.drop_eq_nil_of_le
        rw [List.length_take]
        have hs : s = n / 100 + (if n % 100 = 0 then 0 else 1) := by omega
        rw [hs]
        exact le_trans (min_le_left _ _) harith.2.1
      rw [List.range'_zero, hdrop]
      simp [search_loop]
  | succ c ih =>
      intro s hsc log acc
      rw [List.range'_succ s c 1, search_loop]
      simp only [github_fetch]
      rw [github_page_ofNat backend n s]
      by_cases hlast : s + 1 = n / 100 + (if n % 100 = 0 then 0 else 1)
      · have hc : c = 0 := by omega
        subst hc
        rw [process_page_last n s hlast]
        rw [ih (s + 1) (by omega)]
        rw [List.range'_zero]
        have hs : n - s * min n 100
            = (if n % 100 = 0 then 100 else n % 100) := by
          have heq : s = (n / 100 + (if n % 100 = 0 then 0 else 1)) - 1 := by
            omega
          rw [heq]
          exact harith.2.2
        have hdrop :
            ((backend.map project).take n).drop ((s + 1) * min n 100)
              = [] := by
          apply List.drop_eq_nil_of_le
          rw [List.length_take, hlast]
          exact le_trans (min_le_left _ _) harith.2.1
        rw [hdrop]
        have hX : ((((backend.drop (s * min n 100)).take (min n 100)).map
              project).take (if n % 100 = 0 then 100 else n % 100))
            = ((backend.map project).take n).drop (s * min n 100) := by
          rw [List.map_take, List.map_drop]
          exact drop_take_last (backend.map project) (s * min n 100) n _ _
            harith.1 hs
        rw [hX]
        simp
      · rw [process_page_not_last n s hlast]
        rw [ih (s + 1) (by omega)]
        have hfr1 : 1 ≤ (if n % 100 = 0 then 100 else n % 100) := by
          split
          · omega
          · omega
        have hle : s + 1 ≤ (n / 100 + (if n % 100 = 0 then 0 else 1)) - 1 := by
          omega
        have hmul : (s + 1) * min n 100
            ≤ ((n / 100 + (if n % 100 = 0 then 0 else 1)) - 1) * min n 100 :=
          Nat.mul_le_mul_right (min n 100) hle
        have hA : (s + 1) * min n 100 ≤ n := by
          have h22 := harith.2.2
          omega
        have hsm : (s + 1) * min n 100 = s * min n 100 + min n 100 :=
          Nat.succ_mul s (min n 100)
        have hY : ((backend.drop (s * min n 100)).take (min n 100)).map
              project
            ++ ((backend.map project).take n).drop ((s + 1) * min n 100)
            = ((backend.map project).take n).drop (s * min n 100) := by
          rw [List.map_take, List.map_drop, hsm]
          exact drop_take_chunk (backend.map project) (s * min n 100)
            (min n 100) n (by omega)
        rw [List.append_assoc acc, hY]
        simp

/-- UserSearcher.search against the sliced backend transport for a
positive request returns the requests for pages 1 up to the page count
together with the first n projected backend records. -/
lemma search_slice (backend : List Row) (n : Nat) (hn : 0 < n) :
    UserSearcher.search (github_fetch backend) (n : Int)
      = Except.ok
          ((List.range' 0 (n / 100 + if n % 100 = 0 then 0 else 1)).map
              (fun (i : Nat) => ((i : Int) + 1, min ((n : Int)) 100)),
           (backend.map project).take n) := by
  simp only [UserSearcher.search]
  have hp : (UserSearcher._get_pages (n : Int) 100).toNat
      = n / 100 + (if n % 100 = 0 then 0 else 1) := by
    rw [get_pages_ofNat, Int.toNat_ofNat]
  rw [hp, List.range_eq_range']
  have h := search_loop_slice backend n hn
    (n / 100 + (if n % 100 = 0 then 0 else 1)) 0 (by omega) [] []
  simpa using h

/-- C1: for every positive num_results, a search against a backend served
in consistent page slices, where each transport fetch returns at most the
requested page size of backend-ordered records, succeeds and returns
exactly min(num_results, total backend records) result rows. -/
theorem search_count_eq_min_available (backend : List Row) (n : Nat)
    (hn : 0 < n) :
    ∃ requested items,
      UserSearcher.search (github_fetch backend) (n : Int)
        = Except.ok (requested, items)
      ∧ items.length = min n backend.length := by
  refine ⟨_, _, search_slice backend n hn, ?_⟩
  rw [List.length_take, List.length_map]

/-- Witness for search_count_eq_min_available: num_results 3 over a
two-record backend returns min 3 2 = 2 rows. -/
theorem search_count_eq_min_available_witness :
    0 < 3
    ∧ ∃ requested items,
        UserSearcher.search
            (github_fetch [[("login", "a"), ("html_url", "u")],
                           [("login", "b"), ("html_url", "v")]])
            ((3 : Nat) : Int)
          = Except.ok (requested, items)
        ∧ items.length
            = min 3 ([[("login", "a"), ("html_url", "u")],
                      [("login", "b"), ("html_url", "v")]] : List Row).length :=
  ⟨by decide,
   search_count_eq_min_available
     [[("login", "a"), ("html_url", "u")],
      [("login", "b"), ("html_url", "v")]] 3 (by decide)⟩

/-- C2: for every positive num_results the computed page count equals
floor(num_results / 100), plus one exactly when the remainder of
num_results by 100 is nonzero; in particular the page counts at 1, 99,
100, 101, 150, 200, 201 are 1, 1, 1, 2, 2, 2, 3 respectively. -/
theorem get_pages_formula (n : Nat) (hn : 0 < n) :
    UserSearcher._get_pages (n : Int) 100
        = ((n / 100 : Nat) : Int) + (if n % 100 = 0 then 0 else 1)
      ∧ UserSearcher._get_pages 1 100 = 1
      ∧ UserSearcher._get_pages 99 100 = 1
      ∧ UserSearcher._get_pages 100 100 = 1
      ∧ UserSearcher._get_pages 101 100 = 2
      ∧ UserSearcher._get_pages 150 100 = 2
      ∧ UserSearcher._get_pages 200 100 = 2
      ∧ UserSearcher._get_pages 201 100 = 3 := by
  refine ⟨?_, by decide, by decide, by decide, by decide, by decide,
    by decide, by decide⟩
  rw [get_pages_ofNat]
  by_cases hr : n % 100 = 0 <;> simp [hr]

/-- Witness for get_pages_formula at num_results 150. -/
theorem get_pages_formula_witness :
    0 < 150
    ∧ (UserSearcher._get_pages ((150 : Nat) : Int) 100
          = ((150 / 100 : Nat) : Int) + (if 150 % 100 = 0 then 0 else 1)
        ∧ UserSearcher._get_pages 1 100 = 1
        ∧ UserSearcher._get_pages 99 100 = 1
        ∧ UserSearcher._get_pages 100 100 = 1
        ∧ UserSearcher._get_pages 101 100 = 2
        ∧ UserSearcher._get_pages 150 100 = 2
        ∧ UserSearcher._get_pages 200 100 = 2
        ∧ UserSearcher._get_pages 201 100 = 3) :=
  ⟨by decide, get_pages_formula 150 (by decide)⟩

/-- For a num_results at most 0 the computed page count is at most 0:
Python floor division of a negative number by 100 is at most -1 and the
bool-to-int remainder test adds at most 1. -/
lemma get_pages_nonpos (num_results : Int) (h : num_results ≤ 0) :
    UserSearcher._get_pages num_results 100 ≤ 0 := by
  unfold UserSearcher._get_pages
  rw [Int.fdiv_eq_ediv _ (by norm_num), Int.fmod_eq_emod _ (by norm_num)]
  by_cases hz : num_results = 0
  · rw [hz]
    decide
  · have hneg : num_results < 0 := by omega
    by_cases hm : 0 < num_results % 100
    · rw [if_pos hm]
      omega
    · rw [if_neg hm]
      omega

/-- For a num_results at most 0 the loop body never runs: the search
consults no fetch and returns the empty request log and empty result. -/
lemma search_nonpos (fetch : Int → Int → Except String (List Row))
    (num_results : Int) (h : num_results ≤ 0) :
    UserSearcher.search fetch num_results = Except.ok ([], []) := by
  simp only [UserSearcher.search]
  rw [Int.toNat_of_nonpos (get_pages_nonpos num_results h),
    List.range_zero]
  rfl

/-- C3: on the last page (0-based index pageCount - 1, so 1-based index
equal to the page count) the fetched page is truncated to num_results mod
100 projected rows, except when that remainder is zero, in which case it
is truncated to 100 rows; in particular for num_results = 200 the final
page (0-based index 1) is truncated to 100 rows, not 0. -/
theorem last_page_truncated_to_remainder (n : Nat) (hn : 0 < n)
    (records : List Row) :
    process_page (n : Int) (UserSearcher._get_pages (n : Int) 100) 100
        ((UserSearcher._get_pages (n : Int) 100).toNat - 1) records
      = (records.map project).take (if n % 100 = 0 then 100 else n % 100)
      ∧ process_page ((200 : Nat) : Int)
          (UserSearcher._get_pages ((200 : Nat) : Int) 100) 100 1 records
        = (records.map project).take 100 := by
  constructor
  · apply process_page_last
    rw [get_pages_ofNat, Int.toNat_ofNat]
    by_cases hr : n % 100 = 0
    · simp only [if_pos hr]
      omega
    · simp only [if_neg hr]
      omega
  · have h := process_page_last 200 1 (by decide) records
    rw [if_pos (by decide : (200 : Nat) % 100 = 0)] at h
    exact h

/-- Witness for last_page_truncated_to_remainder at num_results 200 with
an empty fetched page. -/
theorem last_page_truncated_to_remainder_witness :
    0 < 200
    ∧ (process_page ((200 : Nat) : Int)
          (UserSearcher._get_pages ((200 : Nat) : Int) 100) 100
          ((UserSearcher._get_pages ((200 : Nat) : Int) 100).toNat - 1)
          ([] : List Row)
        = (([] : List Row).map project).take
            (if 200 % 100 = 0 then 100 else 200 % 100)
        ∧ process_page ((200 : Nat) : Int)
            (UserSearcher._get_pages ((200 : Nat) : Int) 100) 100 1
            ([] : List Row)
          = (([] : List Row).map project).take 100) :=
  ⟨by decide, last_page_truncated_to_remainder 200 (by decide) []⟩

/-- C7: construction raises the ValueError (the InvalidCriteria failure)
exactly when all three criteria are absent, and succeeds exactly when at
least one criterion is present. -/
theorem init_error_iff_all_absent (min_followers min_repos : Option Int)
    (language : Option String) :
    (UserSearcher.init min_followers min_repos language
        = Except.error "Must specify at least one search parameter."
      ↔ (min_followers = none ∧ min_repos = none ∧ language = none))
    ∧ ((∃ u, UserSearcher.init min_followers min_repos language
          = Except.ok u)
      ↔ ¬ (min_followers = none ∧ min_repos = none ∧ language = none)) := by
  unfold UserSearcher.init
  by_cases h : min_followers = none ∧ min_repos = none ∧ language = none
  · rw [if_pos h]
    constructor
    · simp [h]
    · constructor
      · rintro ⟨u, hu⟩
        exact absurd hu (by simp)
      · intro hc
        exact absurd h hc
  · rw [if_neg h]
    constructor
    · constructor
      · intro hc
        exact absurd hc (by simp)
      · intro hc
        exact absurd hc h
    · simp [h]

/-- C6 counterexample: the criteria (min_followers = 0, language set) have
the followers field present, yet the constructed query string contains no
followers clause, so it differs from the spec rendering with one clause
per present field. -/
theorem query_clause_per_present_field_cex :
    (UserSearcher.init (some 0) none (some "python")).map
        (fun u => u._search_query)
      = Except.ok "language:python"
    ∧ String.intercalate "+" (spec_clauses (some 0) none (some "python"))
      = "followers:>=0+language:python"
    ∧ ("language:python" : String) ≠ "followers:>=0+language:python" := by
  refine ⟨rfl, rfl, by decide⟩

/-- C6 amended: for every criteria set with at least one field present,
construction succeeds and the query string contains exactly one clause
per present field whose value is truthy (a nonzero integer, a nonempty
string), rendered in the fixed field order followers, repos, language and
joined with the plus delimiter; present fields with falsy values (zero,
the empty string) contribute no clause. -/
theorem query_clause_per_truthy_field (min_followers min_repos : Option Int)
    (language : Option String)
    (h : ¬ (min_followers = none ∧ min_repos = none ∧ language = none)) :
    ∃ u, UserSearcher.init min_followers min_repos language = Except.ok u
      ∧ u._search_query
        = String.intercalate "+"
            (amended_clauses min_followers min_repos language) := by
  unfold UserSearcher.init
  rw [if_neg h]
  refine ⟨_, rfl, ?_⟩
  have hlist : followers_clause min_followers ++ repos_clause min_repos
        ++ language_clause language
      = amended_clauses min_followers min_repos language := by
    unfold amended_clauses
    congr 1
    · congr 1
      · cases min_followers with
        | none => rfl
        | some v => by_cases hv : v = 0 <;> simp [followers_clause, hv]
      · cases min_repos with
        | none => rfl
        | some v => by_cases hv : v = 0 <;> simp [repos_clause, hv]
    · cases language with
      | none => rfl
      | some s => by_cases hs : s = "" <;> simp [language_clause, hs]
  show String.intercalate "+"
      (followers_clause min_followers ++ repos_clause min_repos
        ++ language_clause language)
    = String.intercalate "+"
        (amended_clauses min_followers min_repos language)
  rw [hlist]

/-- Witness for query_clause_per_truthy_field: min_followers 0 is present
but falsy, language python is present and truthy. -/
theorem query_clause_per_truthy_field_witness :
    ¬ ((some 0 : Option Int) = none ∧ (none : Option Int) = none
        ∧ (some "python" : Option String) = none)
    ∧ ∃ u, UserSearcher.init (some 0) none (some "python") = Except.ok u
        ∧ u._search_query
          = String.intercalate "+"
              (amended_clauses (some 0) none (some "python")) :=
  ⟨by decide, query_clause_per_truthy_field (some 0) none (some "python")
    (by decide)⟩

/-- C10 counterexample: at num_results = -100 the computed page count is
-1, not 0, because Python floor division rounds -100 // 100 to -1 and the
remainder is 0. -/
theorem nonpositive_page_count_cex :
    UserSearcher._get_pages (-100) 100 = -1
    ∧ UserSearcher._get_pages (-100) 100 ≠ 0 := by decide

/-- C10 amended: for every num_results at most 0 the computed page count
is at most 0 (it is negative at exact negative multiples of 100), so
range(num_pages) is empty: the search issues no transport request, raises
no error, and returns an empty result set. -/
theorem nonpositive_results_empty
    (fetch : Int → Int → Except String (List Row)) (num_results : Int)
    (h : num_results ≤ 0) :
    UserSearcher._get_pages num_results 100 ≤ 0
    ∧ UserSearcher.search fetch num_results = Except.ok ([], []) :=
  ⟨get_pages_nonpos num_results h, search_nonpos fetch num_results h⟩

/-- Witness for nonpositive_results_empty at num_results -100 with a
transport that would fail every fetch, showing no fetch is consulted. -/
theorem nonpositive_results_empty_witness :
    (-100 : Int) ≤ 0
    ∧ (UserSearcher._get_pages (-100) 100 ≤ 0
        ∧ UserSearcher.search (fun _ _ => Except.error "down") (-100)
          = Except.ok ([], [])) :=
  ⟨by decide,
   nonpositive_results_empty (fun _ _ => Except.error "down") (-100)
     (by decide)⟩

/-- C5: for every num_results and every transport whose fetches all
succeed, the pages are requested with 1-based page index ascending from 1
to the page count, each with per_page min(num_results, 100), and the
returned result set is the in-order concatenation of the (possibly
truncated) processed pages, so the relative order of rows within and
across pages is preserved. -/
theorem search_requests_ascending_and_concat
    (f : Int → Int → List Row) (num_results : Int) :
    UserSearcher.search (fun p pp => Except.ok (f p pp)) num_results
      = Except.ok
          ((List.range' 1
              (UserSearcher._get_pages num_results 100).toNat).map
              (fun (page : Nat) => ((page : Int), min num_results 100)),
           (List.range
              (UserSearcher._get_pages num_results 100).toNat).flatMap
             (fun i => process_page num_results
                (UserSearcher._get_pages num_results 100) 100 i
                (f ((i : Int) + 1) (min num_results 100)))) := by
  simp only [UserSearcher.search]
  rw [search_loop_ok]
  simp only [List.nil_append]
  congr 1
  rw [List.range'_eq_map_range, List.map_map]
  congr 1
  apply List.map_congr_left
  intro i hi
  simp only [Function.comp_apply]
  congr 1
  push_cast
  ring

/-- C4: for num_results = 250 the search issues exactly three transport
page requests, (page 1, per_page 100), (page 2, per_page 100), (page 3,
per_page 100), with per_page = min(250, 100) = 100, and truncates the
final fetched page to 50 rows. -/
theorem search_250_three_pages_last_truncated_50 (backend : List Row) :
    UserSearcher.search (github_fetch backend) 250
      = Except.ok
          ([(1, 100), (2, 100), (3, 100)],
           (github_page backend 1 100).map project
             ++ (github_page backend 2 100).map project
             ++ ((github_page backend 3 100).map project).take 50) := by
  have hchunks : (github_page backend 1 100).map project
      ++ (github_page backend 2 100).map project
      ++ ((github_page backend 3 100).map project).take 50
      = (backend.map project).take 250 := by
    have h1 : github_page backend 1 100 = backend.take 100 := by
      unfold github_page
      rw [show (((1 : Int) - 1) * 100).toNat = 0 from by decide,
        show ((100 : Int)).toNat = 100 from by decide, List.drop_zero]
    have h2 : github_page backend 2 100 = (backend.drop 100).take 100 := by
      unfold github_page
      rw [show (((2 : Int) - 1) * 100).toNat = 100 from by decide,
        show ((100 : Int)).toNat = 100 from by decide]
    have h3 : github_page backend 3 100 = (backend.drop 200).take 100 := by
      unfold github_page
      rw [show (((3 : Int) - 1) * 100).toNat = 200 from by decide,
        show ((100 : Int)).toNat = 100 from by decide]
    rw [h1, h2, h3, List.map_take, List.map_take, List.map_take,
      List.map_drop, List.map_drop, List.take_take]
    rw [show min 50 100 = 50 from by norm_num]
    rw [show (250 : Nat) = 100 + 150 from by norm_num, List.take_add,
      show (150 : Nat) = 100 + 50 from by norm_num, List.take_add,
      List.drop_drop]
    rw [show (100 + 100 : Nat) = 200 from by norm_num, List.append_assoc]
  rw [hchunks]
  have h := search_slice backend 250 (by norm_num)
  rw [show (((250 : Nat)) : Int) = (250 : Int) from by norm_num] at h
  rw [h]
  have hreq : (List.range' 0 (250 / 100 + if 250 % 100 = 0 then 0 else 1)).map
      (fun (i : Nat) => ((i : Int) + 1, min (250 : Int) 100))
      = [((1 : Int), (100 : Int)), (2, 100), (3, 100)] := by decide
  rw [hreq]

/-- The search loop aborts with the transport's error as soon as it
reaches the failing 1-based page k, given that all earlier pages
succeed. -/
lemma search_loop_err (fetch : Int → Int → Except String (List Row))
    (nr np : Int) (k : Nat) (e : String)
    (herr : fetch (k : Int) (min nr 100) = Except.error e)
    (hok : ∀ j : Nat, 1 ≤ j → j < k →
      ∃ recs, fetch (j : Int) (min nr 100) = Except.ok recs) :
    ∀ (cnt : Nat), ∀ (s : Nat), s + 1 ≤ k → k ≤ s + cnt →
    ∀ (log : List (Int × Int)) (acc : List Row),
      search_loop fetch nr np 100 (List.range' s cnt) log acc
        = Except.error e := by
  intro cnt
  induction cnt with
  | zero =>
      intro s h1 h2 log acc
      omega
  | succ c ih =>
      intro s h1 h2 log acc
      rw [List.range'_succ s c 1, search_loop]
      by_cases hk : s + 1 = k
      · have hcast : fetch ((s : Int) + 1) (min nr 100)
            = Except.error e := by
          rw [show ((s : Int) + 1) = ((k : Nat) : Int) from by
            rw [← hk]; push_cast; ring]
          exact herr
        simp only [hcast]
      · obtain ⟨recs, hrecs⟩ := hok (s + 1) (by omega) (by omega)
        have hcast : fetch ((s : Int) + 1) (min nr 100)
            = Except.ok recs := by
          rw [show ((s : Int) + 1) = (((s + 1 : Nat)) : Int) from by
            push_cast; ring]
          exact hrecs
        simp only [hcast]
        exact ih (s + 1) (by omega) (by omega) _ _

/-- C8: if the transport fails on the k-th page request of a search
(every earlier page succeeding), the failure propagates to the caller
unchanged, no further request is issued, and no result set is returned:
rows accumulated from the earlier pages are discarded. -/
theorem transport_error_propagates
    (fetch : Int → Int → Except String (List Row)) (num_results : Int)
    (k : Nat) (e : String) (hk1 : 1 ≤ k)
    (hk2 : (k : Int) ≤ UserSearcher._get_pages num_results 100)
    (herr : fetch (k : Int) (min num_results 100) = Except.error e)
    (hok : ∀ j : Nat, 1 ≤ j → j < k →
      ∃ recs, fetch (j : Int) (min num_results 100) = Except.ok recs) :
    UserSearcher.search fetch num_results = Except.error e := by
  simp only [UserSearcher.search]
  rw [List.range_eq_range']
  exact search_loop_err fetch num_results _ k e herr hok _ 0 (by omega)
    (by omega) [] []

/-- Witness for transport_error_propagates: with num_results 250 and a
transport failing on page 2 of 3, the search returns the error and page
1's rows are never exposed. -/
theorem transport_error_propagates_witness :
    UserSearcher.search
        (fun p _ => if p = 2 then Except.error "boom"
          else Except.ok ([[("login", "a"), ("html_url", "u")]] : List Row))
        250
      = Except.error "boom" :=
  transport_error_propagates
    (fun p _ => if p = 2 then Except.error "boom"
      else Except.ok ([[("login", "a"), ("html_url", "u")]] : List Row))
    250 2 "boom" (by decide) (by decide) rfl
    (fun j h1 h2 => ⟨[[("login", "a"), ("html_url", "u")]], by
      have hj : j = 1 := by omega
      subst hj
      rfl⟩)

/-- C9: every row of the result set of a search against a sliced backend
whose records carry neither a username nor a github_url column is the
two-column projection of some backend record, its username taken from
that record's login column and its github_url from its html_url column;
no other backend-supplied column survives in the row. -/
theorem result_items_are_projections (backend : List Row)
    (num_results : Int)
    (hb : ∀ r ∈ backend, "username" ∉ r.map Prod.fst
        ∧ "github_url" ∉ r.map Prod.fst)
    (requested : List (Int × Int)) (items : List Row)
    (hs : UserSearcher.search (github_fetch backend) num_results
        = Except.ok (requested, items)) :
    ∀ item ∈ items, ∃ r ∈ backend,
      item = [("username", (List.lookup "login" r).getD ""),
              ("github_url", (List.lookup "html_url" r).getD "")]
      ∧ item.map Prod.fst = ["username", "github_url"] := by
  intro item hitem
  have hmem : item ∈ backend.map project := by
    rcases le_or_lt num_results 0 with hle | hpos
    · rw [search_nonpos (github_fetch backend) num_results hle] at hs
      have hitems : items = ([] : List Row) :=
        (congrArg Prod.snd (Except.ok.inj hs)).symm
      rw [hitems] at hitem
      exact absurd hitem (List.not_mem_nil item)
    · have hcast : num_results = ((num_results.toNat : Nat) : Int) := by
        omega
      rw [hcast] at hs
      rw [search_slice backend num_results.toNat (by omega)] at hs
      have hitems : (backend.map project).take num_results.toNat
          = items := congrArg Prod.snd (Except.ok.inj hs)
      rw [← hitems] at hitem
      exact List.mem_of_mem_take hitem
  obtain ⟨r, hr, hpr⟩ := List.mem_map.mp hmem
  refine ⟨r, hr, ?_, ?_⟩
  · rw [← hpr, project_eq_pair r (hb r hr).1 (hb r hr).2]
  · rw [← hpr, project_eq_pair r (hb r hr).1 (hb r hr).2]
    rfl

/-- Witness for result_items_are_projections over a one-record backend
with an extra id column, searched with num_results 1. -/
theorem result_items_are_projections_witness :
    ∃ r ∈ ([[("login", "a"), ("html_url", "u"), ("id", "1")]] : List Row),
      ([("username", "a"), ("github_url", "u")] : Row)
          = [("username", (List.lookup "login" r).getD ""),
             ("github_url", (List.lookup "html_url" r).getD "")]
        ∧ ([("username", "a"), ("github_url", "u")] : Row).map Prod.fst
          = ["username", "github_url"] :=
  result_items_are_projections
    [[("login", "a"), ("html_url", "u"), ("id", "1")]] 1 (by decide)
    [(1, 1)] [[("username", "a"), ("github_url", "u")]] rfl
    [("username", "a"), ("github_url", "u")] (by decide)

end GithubSearch
